import Mathlib

/-!
# HTMLReporter (oclint reporter plug-in): embedding and verified properties

Shallow embedding of `src/reporters/HTMLReporter.cpp`.

* `std::string` is a Lean `String`; `std::less<std::string>` (byte-wise
  lexicographic order) is `less`, the lexicographic order of the character
  sequences by code point, which coincides with the byte-wise order of the
  UTF-8 encoding and with the order `<` of `String`.
* `int` values (rule priority, line, column, map counters) are `Int`.  The
  counters of the aggregator are bounded by the number of violations, so the
  range of `int` is not reached for fewer than `2^31` violations.
* `out << ...` appends text; every writer returns the text it appends.
* `std::map<std::string, int>` is the list of its entries in iteration
  order (strictly ascending keys) with `find`, the inserting `operator[]`
  and the in-place update of `element->second`.
* The script embedded by `writeHead` is a step function on the state of the
  rendered page (`Page`).
-/

namespace HTMLReporter

/-! ## Data model (declared in `oclint/RuleBase.h`, `oclint/Violation.h`, `oclint/Results.h`) -/

/-- Modelled from the spec: the rule interface `RuleBase` (declared in
`oclint/RuleBase.h`): `name` (display string, may contain spaces), `category` (display
string), `priority` (an `int`). -/
structure RuleBase where
  name : String
  category : String
  priority : Int
  deriving DecidableEq, Repr

/-- Modelled from the spec: the value type `Violation` (declared in `oclint/Violation.h`):
`path`, `startLine`, `startColumn`, `message` and the rule that produced it.  The source
dereferences `violation.rule` unconditionally for rule violations, so the field holds the
pointee; the writers of compiler diagnostics and checker bugs never read it. -/
structure Violation where
  rule : RuleBase
  path : String
  startLine : Int
  startColumn : Int
  message : String
  deriving DecidableEq, Repr

/-- Modelled from the spec: the result set `Results` (declared in `oclint/Results.h`): the
ordered violations and the three diagnostic groups. -/
structure Results where
  allViolations : List Violation
  allErrors : List Violation
  allWarnings : List Violation
  allCheckerBugs : List Violation
  deriving DecidableEq, Repr

/-- Modelled from the spec: `Results::numberOfViolationsWithPriority` (declared in
`oclint/Results.h`), the count-by-priority lookup: the number of violations in
`allViolations` whose rule has the given priority. -/
def Results.numberOfViolationsWithPriority (results : Results) (priority : Int) : Int :=
  ((results.allViolations.filter (fun v => v.rule.priority = priority)).length : Int)

/-- Modelled from the spec: `Results::hasErrors` (declared in `oclint/Results.h`): compiler
errors exist. -/
def Results.hasErrors (results : Results) : Bool := !results.allErrors.isEmpty

/-- Modelled from the spec: `Results::hasWarnings` (declared in `oclint/Results.h`): compiler
warnings exist. -/
def Results.hasWarnings (results : Results) : Bool := !results.allWarnings.isEmpty

/-- Modelled from the spec: `Results::hasCheckerBugs` (declared in `oclint/Results.h`):
analyzer-internal failures exist. -/
def Results.hasCheckerBugs (results : Results) : Bool := !results.allCheckerBugs.isEmpty

/-! ## Text helpers -/

/-- The text `out << n` appends for an `int`. -/
def showInt (n : Int) : String := toString n

/-- The effect of `std::replace(classname.begin(), classname.end(), ' ', '_')` on a copy of
the rule name: every space becomes an underscore, every other character is kept. -/
def classname (name : String) : String :=
  String.mk (name.data.map (fun c => if c = ' ' then '_' else c))

/-- Number of occurrences of the character `c` in the text `s`. -/
def occurrences (c : Char) (s : String) : Nat := s.data.count c

/-! ## Detail rows: `writeViolation`, `writeCompilerErrorOrWarning`, `writeCheckerBugs` -/

/-- Text appended by `writeViolation` (source lines 66-80). -/
def writeViolation (violation : Violation) : String :=
  let rule := violation.rule
  "<tr class=\"" ++ classname rule.name ++ "\">"
    ++ "<td>" ++ violation.path ++ "</td><td>" ++ showInt violation.startLine
    ++ ":" ++ showInt violation.startColumn ++ "</td>"
    ++ "<td>" ++ rule.name ++ "</td>"
    ++ "<td>" ++ rule.category ++ "</td>"
    ++ "<td class='priority" ++ showInt rule.priority ++ "'>"
    ++ showInt rule.priority ++ "</td>"
    ++ "<td>" ++ violation.message ++ "</td></tr>"

/-- Text appended by `writeCompilerErrorOrWarning` (source lines 82-90). -/
def writeCompilerErrorOrWarning (violation : Violation) (level : String) : String :=
  "<tr class=\"compiler-" ++ level ++ "\">"
    ++ "<td>" ++ violation.path ++ "</td><td>" ++ showInt violation.startLine
    ++ ":" ++ showInt violation.startColumn ++ "</td>"
    ++ "<td>compiler " ++ level ++ "</td><td></td><td class='cmplr-" ++ level ++ "'>"
    ++ level ++ "</td><td>" ++ violation.message ++ "</td></tr>"

/-- Rows appended by `writeCompilerDiagnostics` (source lines 92-99), one per loop
iteration. -/
def writeCompilerDiagnostics (violations : List Violation) (level : String) : List String :=
  violations.map (fun violation => writeCompilerErrorOrWarning violation level)

/-- Text appended by one iteration of the loop of `writeCheckerBugs` (source lines
105-108). -/
def writeCheckerBug (violation : Violation) : String :=
  "<tr class=\"clang_static_analyzer\"><td>" ++ violation.path ++ "</td><td>"
    ++ showInt violation.startLine
    ++ ":" ++ showInt violation.startColumn ++ "</td>"
    ++ "<td>clang static analyzer</td><td></td><td class='checker-bug'>"
    ++ "checker bug</td><td>" ++ violation.message ++ "</td></tr>"

/-- Rows appended by `writeCheckerBugs` (source lines 101-110), one per loop iteration. -/
def writeCheckerBugs (violations : List Violation) : List String :=
  violations.map writeCheckerBug

/-- Body rows of the detail table appended by `report` (source lines 35-50): the loop over
`allViolations`, then the three guarded diagnostic groups. -/
def reportDetailRows (results : Results) : List String :=
  results.allViolations.map writeViolation
    ++ (if results.hasErrors then writeCompilerDiagnostics results.allErrors "error" else [])
    ++ (if results.hasWarnings then writeCompilerDiagnostics results.allWarnings "warning"
        else [])
    ++ (if results.hasCheckerBugs then writeCheckerBugs results.allCheckerBugs else [])

/-- Text of the detail table appended by `report` (source lines 32-51). -/
def reportDetailTable (results : Results) : String :=
  "<table class=\"sortable\"><thead><tr><th>File</th><th>Location</th>"
    ++ "<th>Rule Name</th><th>Rule Category</th>"
    ++ "<th>Priority</th><th>Message</th></tr></thead><tbody>"
    ++ String.join (reportDetailRows results)
    ++ "</tbody></table>"

/-! ## The aggregator: the lambda `fct` of `writeSummaryTable` -/

/-- The comparison `std::less<std::string>` of `std::map<std::string, int>`: lexicographic
comparison of the character sequences. -/
def less (a b : String) : Bool := decide (a.data < b.data)

/-- Contents of a `std::map<std::string, int>`, listed in iteration order (`begin()` to
`end()`). -/
abbrev StdMap := List (String × Int)

/-- `array.find(key)`: the mapped value of the entry with that key, `none` for
`array.end()`. -/
def StdMap.find : StdMap → String → Option Int
  | [], _ => none
  | (k, c) :: rest, key => if k = key then some c else StdMap.find rest key

/-- `array[key] = value`: the entry is created at its place in key order (or assigned, when
the key is present). -/
def StdMap.assign : StdMap → String → Int → StdMap
  | [], key, value => [(key, value)]
  | (k, c) :: rest, key, value =>
    if less key k then (key, value) :: (k, c) :: rest
    else if less k key then (k, c) :: StdMap.assign rest key value
    else (k, value) :: rest

/-- `element->second += 1` for the entry `element` found under `key`. -/
def StdMap.increment : StdMap → String → StdMap
  | [], _ => []
  | (k, c) :: rest, key =>
    if k = key then (k, c + 1) :: rest else (k, c) :: StdMap.increment rest key

/-- One iteration of the accumulation loop of `fct` (source lines 131-146). -/
def fctStep (priority : Int) (array : StdMap) (violation : Violation) : StdMap :=
  let rule := violation.rule
  if rule.priority ≠ priority then array
  else
    let key := classname rule.name
    match array.find key with
    | none => array.assign key 1
    | some _ => array.increment key

/-- The map `array` after the accumulation loop of `fct` (source lines 128-147). -/
def fctArray (violations : List Violation) (priority : Int) : StdMap :=
  violations.foldl (fctStep priority) []

/-- A row of the body of the summary table. -/
inductive SummaryRow where
  | allBugs (total : Int)
  | priorityHeader (priority : Int) (total : Int)
  | category (key : String) (count : Int)
  deriving DecidableEq, Repr

/-- The markup of a summary row (source lines 160, 149 and 153). -/
def SummaryRow.render : SummaryRow → String
  | .allBugs total =>
    "<tr style=\"font-weight:bold\"><td class=\"SUMM_DESC\">All Bugs</td><td>"
      ++ showInt total
      ++ "</td><td><center><input type=\"checkbox\" id=\"AllBugsCheck\" onclick=\"CopyCheckedStateToCheckButtons(this);\" checked=\"\"></center></td></tr>"
  | .priorityHeader priority total =>
    "<tr><th class='priority" ++ showInt priority ++ "'>Priority " ++ showInt priority
      ++ "</th><th colspan=\"2\" class='priority" ++ showInt priority ++ "'>"
      ++ showInt total ++ "</th></tr>"
  | .category key count =>
    "<tr><td class=\"SUMM_DESC\">" ++ key ++ "</td><td class=\"Q\">" ++ showInt count
      ++ "</td><td><center><input type=\"checkbox\" onclick=\"ToggleDisplay(this,&#39;"
      ++ key ++ "&#39;);\" checked=\"\"></center></td></tr>"

/-- Rows written by one call of the lambda `fct` (source lines 127-156): the "Priority p"
header with the total reported by the result set, then one row per map entry in iteration
order. -/
def fct (results : Results) (priority : Int) : List SummaryRow :=
  let array := fctArray results.allViolations priority
  SummaryRow.priorityHeader priority (results.numberOfViolationsWithPriority priority)
    :: array.map (fun it => SummaryRow.category it.1 it.2)

/-- Body rows of the summary table written by `writeSummaryTable` (source lines 160-172). -/
def writeSummaryRows (results : Results) : List SummaryRow :=
  [SummaryRow.allBugs (results.numberOfViolationsWithPriority 1
      + results.numberOfViolationsWithPriority 2
      + results.numberOfViolationsWithPriority 3)]
    ++ (if results.numberOfViolationsWithPriority 1 > 0 then fct results 1 else [])
    ++ (if results.numberOfViolationsWithPriority 2 > 0 then fct results 2 else [])
    ++ (if results.numberOfViolationsWithPriority 3 > 0 then fct results 3 else [])

/-- The entries `(key, count)` shown by the category rows of a list of summary rows, in
order. -/
def categoryEntries (rows : List SummaryRow) : List (String × Int) :=
  rows.filterMap (fun row =>
    match row with
    | .category key count => some (key, count)
    | _ => none)

/-- Text appended by `writeSummaryTable` (source lines 158-174). -/
def writeSummaryTable (results : Results) : String :=
  "<h2>Bug Summary</h2>"
    ++ "<table><thead><tr><td>Bug Type</td><td>Quantity</td><td>Display?</td></tr></thead>"
    ++ "<tbody>" ++ String.join ((writeSummaryRows results).map SummaryRow.render)
    ++ "</tbody></table>"

/-- Text appended by `report` (source lines 23-56).  `head` is the constant text written by
`writeHead` (title, style sheet, reference to `sorttable.js` and the script modelled by
`Page` below); `footer` is the text written by `writeFooter` from the clock and the version
identifier. -/
def report (results : Results) (head footer : String) : String :=
  "<!DOCTYPE html>"
    ++ "<html>"
    ++ head
    ++ "<body>"
    ++ "<h1>OCLint Report</h1>"
    ++ "<hr />"
    ++ "<h2>Summary</h2>"
    ++ writeSummaryTable results
    ++ "<hr />"
    ++ reportDetailTable results
    ++ "<hr />"
    ++ footer
    ++ "</body>"
    ++ "</html>"
    ++ "\n"

/-! ## The embedded script: `SetDisplay`, `ToggleDisplay`, `CopyCheckedStateToCheckButtons` -/

/-- A category checkbox of the summary table, an `input` element written by `fct` with
`onclick="ToggleDisplay(this,'className');"`. -/
structure CheckButton where
  className : String
  checked : Bool
  deriving DecidableEq, Repr

/-- A `tr` element of the page: its `className` and its `style.display`. -/
structure TableRow where
  className : String
  display : String
  deriving DecidableEq, Repr

/-- State of the rendered page seen by the script: the global `NumUnchecked`, the `checked`
flag of the master checkbox `AllBugsCheck`, the category checkboxes (the other `input`
elements, in document order) and the `tr` elements.  `NumUnchecked` is a script number;
it holds integers only and is modelled as `Int`. -/
structure Page where
  NumUnchecked : Int
  AllBugsCheck : Bool
  checkButtons : List CheckButton
  rows : List TableRow
  deriving DecidableEq, Repr

/-- Script function `SetDisplay(RowClass, DisplayVal)` (source lines 223-231). -/
def SetDisplay (RowClass DisplayVal : String) (rows : List TableRow) : List TableRow :=
  rows.map (fun row => if row.className = RowClass then { row with display := DisplayVal }
    else row)

/-- Script function `ToggleDisplay(CheckButton, ClassName)` (source lines 257-269), called
by the `onclick` handler of the category checkbox number `i`. -/
def ToggleDisplay (page : Page) (i : Nat) : Page :=
  match page.checkButtons[i]? with
  | none => page
  | some button =>
    if button.checked then
      let page1 := { page with rows := SetDisplay button.className "" page.rows }
      let page2 := { page1 with NumUnchecked := page1.NumUnchecked - 1 }
      if page2.NumUnchecked = 0 then { page2 with AllBugsCheck := true } else page2
    else
      let page1 := { page with rows := SetDisplay button.className "none" page.rows }
      let page2 := { page1 with NumUnchecked := page1.NumUnchecked + 1 }
      { page2 with AllBugsCheck := false }

/-- Assignment `Inputs[i].checked = value` on the category checkbox number `i`. -/
def setChecked (page : Page) (i : Nat) (value : Bool) : Page :=
  { page with checkButtons := page.checkButtons.modify (fun b => { b with checked := value }) i }

/-- Script function `CopyCheckedStateToCheckButtons(SummaryCheckButton)` (source lines
233-243) called on the master checkbox: every other checkbox receives the current state of
the master and has its `onclick` handler run. -/
def CopyCheckedStateToCheckButtons (page : Page) : Page :=
  (List.range page.checkButtons.length).foldl
    (fun st i => ToggleDisplay (setChecked st i st.AllBugsCheck) i) page

/-- A user interaction with the summary table. -/
inductive Click where
  | category (i : Nat)
  | master
  deriving DecidableEq, Repr

/-- A click on the category checkbox number `i`: the viewer flips the box, then runs its
`onclick` handler. -/
def clickCategory (page : Page) (i : Nat) : Page :=
  match page.checkButtons[i]? with
  | none => page
  | some button => ToggleDisplay (setChecked page i (!button.checked)) i

/-- A click on the master checkbox: the viewer flips it, then runs its `onclick` handler. -/
def clickMaster (page : Page) : Page :=
  CopyCheckedStateToCheckButtons { page with AllBugsCheck := !page.AllBugsCheck }

/-- Effect of one interaction. -/
def Page.click (page : Page) : Click → Page
  | .category i => clickCategory page i
  | .master => clickMaster page

/-- Effect of a sequence of interactions. -/
def Page.run (page : Page) (clicks : List Click) : Page :=
  clicks.foldl Page.click page

/-- Number of category checkboxes that are currently unchecked. -/
def Page.unchecked (page : Page) : Nat :=
  (page.checkButtons.filter (fun b => !b.checked)).length

/-- The value of the `class` attribute of a row written as `<tr class="...">`: the text
between the opening quote and the next quote. -/
def classAttribute (row : String) : String :=
  String.mk ((row.data.drop "<tr class=\"".length).takeWhile (fun c => c != '"'))

/-- The page at load time: `var NumUnchecked = 0`, every checkbox written with
`checked=""`, no row with an inline `display`.  The category checkboxes are those of the
summary rows; the `tr` elements are the two header rows, the summary rows (no class) and
the detail rows. -/
def Page.load (results : Results) : Page :=
  { NumUnchecked := 0
    AllBugsCheck := true
    checkButtons := (categoryEntries (writeSummaryRows results)).map (fun entry =>
      { className := entry.1, checked := true })
    rows := [{ className := "", display := "" }]
      ++ (writeSummaryRows results).map (fun _ => { className := "", display := "" })
      ++ [{ className := "", display := "" }]
      ++ (reportDetailRows results).map (fun row =>
        { className := classAttribute row, display := "" }) }

/-! ## Auxiliary definitions used to state the properties -/

/-- The violations of a sequence that have rule priority `p` and sanitized rule name `k`. -/
def matching (violations : List Violation) (p : Int) (k : String) : List Violation :=
  violations.filter (fun v => decide (v.rule.priority = p) && decide (classname v.rule.name = k))

/-- Sum of the mapped values of a map. -/
def StdMap.total (m : StdMap) : Int := (m.map Prod.snd).sum

/-! ## Sample inputs -/

/-- A rule violation of priority 1 named "Empty If Statement". -/
def sampleViolationA : Violation :=
  { rule := { name := "Empty If Statement", category := "basic", priority := 1 }
    path := "a.cpp", startLine := 10, startColumn := 2, message := "empty" }

/-- A rule violation of priority 3 named "Long Line". -/
def sampleViolationB : Violation :=
  { rule := { name := "Long Line", category := "size", priority := 3 }
    path := "b.cpp", startLine := 4, startColumn := 1, message := "long" }

/-- A rule violation of priority 1 named "Long Method". -/
def sampleViolationC : Violation :=
  { rule := { name := "Long Method", category := "size", priority := 1 }
    path := "c.cpp", startLine := 7, startColumn := 3, message := "method" }

/-- A result set with three rule violations and no diagnostics. -/
def sampleResults : Results :=
  { allViolations := [sampleViolationC, sampleViolationA, sampleViolationB]
    allErrors := [], allWarnings := [], allCheckerBugs := [] }

/-- The result set `sampleResults` with its violations in another order. -/
def sampleResultsPermuted : Results :=
  { allViolations := [sampleViolationB, sampleViolationC, sampleViolationA]
    allErrors := [], allWarnings := [], allCheckerBugs := [] }

/-- A rule violation of priority 1 whose rule is named "Long Method". -/
def spacedNameViolation : Violation :=
  { rule := { name := "Long Method", category := "size", priority := 1 }
    path := "a.cpp", startLine := 1, startColumn := 1, message := "first" }

/-- A rule violation of priority 2 whose rule is named "Long_Method". -/
def underscoredNameViolation : Violation :=
  { rule := { name := "Long_Method", category := "basic", priority := 2 }
    path := "b.cpp", startLine := 2, startColumn := 1, message := "second" }

/-- A rule violation of priority 1 whose rule is named "Long_Method". -/
def underscoredSamePriorityViolation : Violation :=
  { rule := { name := "Long_Method", category := "basic", priority := 1 }
    path := "b.cpp", startLine := 2, startColumn := 1, message := "second" }

/-- The result set holding `spacedNameViolation` and `underscoredNameViolation`. -/
def mixedPriorityResults : Results :=
  { allViolations := [spacedNameViolation, underscoredNameViolation]
    allErrors := [], allWarnings := [], allCheckerBugs := [] }

/-- The result set holding `spacedNameViolation` and `underscoredSamePriorityViolation`. -/
def samePriorityResults : Results :=
  { allViolations := [spacedNameViolation, underscoredSamePriorityViolation]
    allErrors := [], allWarnings := [], allCheckerBugs := [] }

/-- A violation whose path and message contain markup characters. -/
def markupViolation : Violation :=
  { rule := { name := "R", category := "c", priority := 1 }
    path := "<b>", startLine := 1, startColumn := 1, message := "a&b" }

/-- A result set with two rule violations of different rules (two category checkboxes). -/
def twoCategoryResults : Results :=
  { allViolations := [sampleViolationC, sampleViolationA]
    allErrors := [], allWarnings := [], allCheckerBugs := [] }

/-- The result set without violations and diagnostics (no category checkbox). -/
def emptyResults : Results :=
  { allViolations := [], allErrors := [], allWarnings := [], allCheckerBugs := [] }

/-! ## Lemmas on the map model and the accumulation loop -/

theorem less_iff (a b : String) : less a b = true ↔ a < b := by
  simp [less, String.lt_iff_toList_lt]

theorem find_assign (m : StdMap) (key : String) (value : Int) (k' : String) :
    StdMap.find (StdMap.assign m key value) k'
      = if key = k' then some value else StdMap.find m k' := by
  induction m with
  | nil => simp [StdMap.assign, StdMap.find]
  | cons hd tl ih =>
    obtain ⟨k, c⟩ := hd
    simp only [StdMap.assign]
    by_cases h1 : less key k = true
    · simp [h1, StdMap.find]
    · by_cases h2 : less k key = true
      · have hne : k ≠ key := by
          rw [less_iff] at h2
          exact ne_of_lt h2
        simp only [h1, h2, StdMap.find, ih, if_true, if_false]
        by_cases h3 : k = k'
        · have : key ≠ k' := fun h => hne (h3.trans h.symm)
          simp [h3, this]
        · simp [h3]
      · have heq : k = key := by
          rw [less_iff] at h1 h2
          rcases lt_trichotomy k key with h | h | h
          · exact absurd h h2
          · exact h
          · exact absurd h h1
        subst heq
        simp only [h1, StdMap.find]
        by_cases h3 : k = k' <;> simp [h3]

theorem find_increment (m : StdMap) (key k' : String) :
    StdMap.find (StdMap.increment m key) k'
      = if key = k' then (StdMap.find m k').map (fun c => c + 1) else StdMap.find m k' := by
  induction m with
  | nil => simp [StdMap.increment, StdMap.find]
  | cons hd tl ih =>
    obtain ⟨k, c⟩ := hd
    simp only [StdMap.increment]
    by_cases h1 : k = key
    · subst h1
      by_cases h2 : k = k'
      · simp [h2, StdMap.find]
      · simp [h2, StdMap.find]
    · simp only [h1, if_false, StdMap.find, ih]
      by_cases h2 : k = k'
      · have : key ≠ k' := fun h => h1 (h2.trans h.symm)
        simp [h2, this]
      · simp [h2]

theorem find_fctStep (p : Int) (m : StdMap) (v : Violation) (k : String) :
    StdMap.find (fctStep p m v) k
      = if v.rule.priority = p ∧ classname v.rule.name = k then
          some (match StdMap.find m k with
                | none => 1
                | some c => c + 1)
        else StdMap.find m k := by
  unfold fctStep
  by_cases hp : v.rule.priority = p
  · simp only [hp, ne_eq, not_true_eq_false, if_false, true_and]
    cases hf : StdMap.find m (classname v.rule.name) with
    | none =>
      simp only [find_assign]
      by_cases hk : classname v.rule.name = k
      · subst hk; simp [hf]
      · simp [hk]
    | some c =>
      simp only [find_increment]
      by_cases hk : classname v.rule.name = k
      · subst hk; simp [hf]
      · simp [hk]
  · simp [hp]

theorem fctArray_snoc (l : List Violation) (v : Violation) (p : Int) :
    fctArray (l ++ [v]) p = fctStep p (fctArray l p) v := by
  simp [fctArray, List.foldl_append]

theorem matching_snoc (l : List Violation) (v : Violation) (p : Int) (k : String) :
    matching (l ++ [v]) p k
      = matching l p k ++ (if v.rule.priority = p ∧ classname v.rule.name = k then [v] else []) := by
  unfold matching
  rw [List.filter_append]
  by_cases h : v.rule.priority = p ∧ classname v.rule.name = k
  · simp [h, List.filter]
  · have : (decide (v.rule.priority = p) && decide (classname v.rule.name = k)) = false := by
      simpa using h
    simp [h, List.filter, this]

theorem find_fctArray (vs : List Violation) (p : Int) (k : String) :
    StdMap.find (fctArray vs p) k
      = if matching vs p k = [] then none else some ((matching vs p k).length : Int) := by
  induction vs using List.reverseRecOn with
  | nil => simp [fctArray, matching, StdMap.find]
  | append_singleton l v ih =>
    rw [fctArray_snoc, find_fctStep, matching_snoc, ih]
    by_cases h : v.rule.priority = p ∧ classname v.rule.name = k
    · by_cases he : matching l p k = []
      · simp [h, he]
      · simp [h, he]
    · simp [h]


theorem mem_assign (m : StdMap) (key : String) (value : Int) (x : String × Int)
    (hx : x ∈ StdMap.assign m key value) : x.1 = key ∨ x ∈ m := by
  induction m with
  | nil =>
    simp only [StdMap.assign, List.mem_singleton] at hx
    left; rw [hx]
  | cons hd tl ih =>
    obtain ⟨k, c⟩ := hd
    simp only [StdMap.assign] at hx
    by_cases h1 : less key k = true
    · rw [if_pos h1, List.mem_cons, List.mem_cons] at hx
      rcases hx with rfl | rfl | hx
      · left; rfl
      · right; exact List.mem_cons_self _ _
      · right; exact List.mem_cons_of_mem _ hx
    · by_cases h2 : less k key = true
      · rw [if_neg h1, if_pos h2, List.mem_cons] at hx
        rcases hx with rfl | hx
        · right; exact List.mem_cons_self _ _
        · rcases ih hx with h | h
          · left; exact h
          · right; exact List.mem_cons_of_mem _ h
      · have heq : k = key := by
          rw [less_iff] at h1 h2
          rcases lt_trichotomy k key with h | h | h
          · exact absurd h h2
          · exact h
          · exact absurd h h1
        rw [if_neg h1, if_neg h2, List.mem_cons] at hx
        rcases hx with rfl | hx
        · left; exact heq
        · right; exact List.mem_cons_of_mem _ hx

theorem pairwise_assign (m : StdMap) (key : String) (value : Int)
    (hm : m.Pairwise (fun a b => a.1 < b.1)) :
    (StdMap.assign m key value).Pairwise (fun a b => a.1 < b.1) := by
  induction m with
  | nil => simp [StdMap.assign]
  | cons hd tl ih =>
    obtain ⟨k, c⟩ := hd
    rw [List.pairwise_cons] at hm
    obtain ⟨hhd, htl⟩ := hm
    simp only [StdMap.assign]
    by_cases h1 : less key k = true
    · rw [if_pos h1]
      have hlt : key < k := (less_iff _ _).1 h1
      refine List.pairwise_cons.2 ⟨?_, List.pairwise_cons.2 ⟨hhd, htl⟩⟩
      intro y hy
      rcases List.mem_cons.1 hy with hy | hy
      · rw [hy]; exact hlt
      · exact lt_trans hlt (hhd y hy)
    · by_cases h2 : less k key = true
      · rw [if_neg h1, if_pos h2]
        have hlt : k < key := (less_iff _ _).1 h2
        refine List.pairwise_cons.2 ⟨?_, ih htl⟩
        intro y hy
        rcases mem_assign tl key value y hy with h | h
        · show k < y.1
          rw [h]; exact hlt
        · exact hhd y h
      · rw [if_neg h1, if_neg h2]
        exact List.pairwise_cons.2 ⟨hhd, htl⟩

theorem mem_increment (m : StdMap) (key : String) (x : String × Int)
    (hx : x ∈ StdMap.increment m key) : ∃ y ∈ m, y.1 = x.1 := by
  induction m with
  | nil => simp [StdMap.increment] at hx
  | cons hd tl ih =>
    obtain ⟨k, c⟩ := hd
    simp only [StdMap.increment] at hx
    by_cases h1 : k = key
    · simp only [h1, if_true, List.mem_cons] at hx
      rcases hx with hx | hx
      · exact ⟨(k, c), List.mem_cons_self _ _, by rw [hx, h1]⟩
      · exact ⟨x, List.mem_cons_of_mem _ hx, rfl⟩
    · simp only [h1, if_false, List.mem_cons] at hx
      rcases hx with hx | hx
      · exact ⟨(k, c), List.mem_cons_self _ _, by rw [hx]⟩
      · obtain ⟨y, hy, hy'⟩ := ih hx
        exact ⟨y, List.mem_cons_of_mem _ hy, hy'⟩

theorem pairwise_increment (m : StdMap) (key : String)
    (hm : m.Pairwise (fun a b => a.1 < b.1)) :
    (StdMap.increment m key).Pairwise (fun a b => a.1 < b.1) := by
  induction m with
  | nil => simp [StdMap.increment]
  | cons hd tl ih =>
    obtain ⟨k, c⟩ := hd
    rw [List.pairwise_cons] at hm
    obtain ⟨hhd, htl⟩ := hm
    simp only [StdMap.increment]
    by_cases h1 : k = key
    · simp only [h1, if_true]
      exact List.pairwise_cons.2 ⟨fun y hy => by simpa [h1] using hhd y hy, htl⟩
    · simp only [h1, if_false]
      refine List.pairwise_cons.2 ⟨?_, ih htl⟩
      intro y hy
      obtain ⟨z, hz, hz'⟩ := mem_increment tl key y hy
      show k < y.1
      rw [← hz']; exact hhd z hz

theorem pairwise_fctStep (p : Int) (m : StdMap) (v : Violation)
    (hm : m.Pairwise (fun a b => a.1 < b.1)) :
    (fctStep p m v).Pairwise (fun a b => a.1 < b.1) := by
  unfold fctStep
  by_cases hp : v.rule.priority = p
  · simp only [hp, ne_eq, not_true_eq_false, if_false]
    cases StdMap.find m (classname v.rule.name) with
    | none => exact pairwise_assign m _ _ hm
    | some c => exact pairwise_increment m _ hm
  · simp only [hp, ne_eq, not_false_eq_true, if_true]
    exact hm

theorem pairwise_fctArray (vs : List Violation) (p : Int) :
    (fctArray vs p).Pairwise (fun a b => a.1 < b.1) := by
  induction vs using List.reverseRecOn with
  | nil => simp [fctArray]
  | append_singleton l v ih =>
    rw [fctArray_snoc]
    exact pairwise_fctStep p _ v ih

theorem mem_iff_find (m : StdMap) (hm : m.Pairwise (fun a b => a.1 < b.1))
    (k : String) (c : Int) : (k, c) ∈ m ↔ StdMap.find m k = some c := by
  induction m with
  | nil => simp [StdMap.find]
  | cons hd tl ih =>
    obtain ⟨k0, c0⟩ := hd
    rw [List.pairwise_cons] at hm
    obtain ⟨hhd, htl⟩ := hm
    simp only [StdMap.find, List.mem_cons, Prod.mk.injEq]
    by_cases h : k0 = k
    · subst h
      simp only [if_true, Option.some.injEq, true_and]
      constructor
      · rintro (h | h)
        · exact h.symm
        · exact absurd (hhd _ h) (lt_irrefl _)
      · intro h; left; exact h.symm
    · simp only [h, if_false]
      rw [← ih htl]
      constructor
      · rintro (⟨h1, _⟩ | h1)
        · exact absurd h1.symm h
        · exact h1
      · intro h1; right; exact h1

theorem mem_fctArray (vs : List Violation) (p : Int) (k : String) (c : Int) :
    (k, c) ∈ fctArray vs p ↔ matching vs p k ≠ [] ∧ c = ((matching vs p k).length : Int) := by
  rw [mem_iff_find _ (pairwise_fctArray vs p), find_fctArray]
  by_cases h : matching vs p k = []
  · simp [h]
  · simp [h, eq_comm]

theorem total_assign (m : StdMap) (key : String) (value : Int)
    (hf : StdMap.find m key = none) :
    StdMap.total (StdMap.assign m key value) = StdMap.total m + value := by
  induction m with
  | nil => simp [StdMap.assign, StdMap.total]
  | cons hd tl ih =>
    obtain ⟨k, c⟩ := hd
    simp only [StdMap.find] at hf
    by_cases hk : k = key
    · simp [hk] at hf
    · simp only [hk, if_false] at hf
      simp only [StdMap.assign]
      by_cases h1 : less key k = true
      · rw [if_pos h1]
        simp only [StdMap.total, List.map_cons, List.sum_cons]
        ring
      · by_cases h2 : less k key = true
        · have := ih hf
          simp only [StdMap.total] at this
          rw [if_neg h1, if_pos h2]
          simp only [StdMap.total, List.map_cons, List.sum_cons, this]
          ring
        · exfalso
          rw [less_iff] at h1 h2
          rcases lt_trichotomy k key with h | h | h
          · exact h2 h
          · exact hk h
          · exact h1 h

theorem total_increment (m : StdMap) (key : String) (c : Int)
    (hf : StdMap.find m key = some c) :
    StdMap.total (StdMap.increment m key) = StdMap.total m + 1 := by
  induction m with
  | nil => simp [StdMap.find] at hf
  | cons hd tl ih =>
    obtain ⟨k, c0⟩ := hd
    simp only [StdMap.find] at hf
    simp only [StdMap.increment]
    by_cases hk : k = key
    · simp only [hk, if_true, StdMap.total, List.map_cons, List.sum_cons]
      ring
    · simp only [hk, if_false] at hf
      have := ih hf
      simp only [StdMap.total] at this
      simp only [hk, if_false, StdMap.total, List.map_cons, List.sum_cons, this]
      ring

theorem total_fctStep (p : Int) (m : StdMap) (v : Violation) :
    StdMap.total (fctStep p m v) = StdMap.total m + (if v.rule.priority = p then 1 else 0) := by
  unfold fctStep
  by_cases hp : v.rule.priority = p
  · simp only [hp, ne_eq, not_true_eq_false, if_false, if_true]
    cases hf : StdMap.find m (classname v.rule.name) with
    | none => exact total_assign m _ 1 hf
    | some c => exact total_increment m _ c hf
  · simp [hp]

theorem total_fctArray (vs : List Violation) (p : Int) :
    StdMap.total (fctArray vs p)
      = ((vs.filter (fun v => decide (v.rule.priority = p))).length : Int) := by
  induction vs using List.reverseRecOn with
  | nil => simp [fctArray, StdMap.total]
  | append_singleton l v ih =>
    rw [fctArray_snoc, total_fctStep, ih, List.filter_append]
    by_cases hp : v.rule.priority = p
    · simp [hp, List.filter]
    · simp [hp, List.filter]

/-! ## Properties of the reporter -/


theorem categoryEntries_fct (results : Results) (p : Int) :
    categoryEntries (fct results p) = fctArray results.allViolations p := by
  unfold fct categoryEntries
  simp only [List.filterMap_cons]
  induction fctArray results.allViolations p with
  | nil => simp
  | cons hd tl ih => simpa using ih

theorem category_mem_fct (results : Results) (p : Int) (k : String) (c : Int) :
    SummaryRow.category k c ∈ fct results p ↔ (k, c) ∈ fctArray results.allViolations p := by
  unfold fct
  simp only [List.mem_cons, List.mem_map, reduceCtorEq, false_or, SummaryRow.category.injEq]
  constructor
  · rintro ⟨⟨a, b⟩, h, rfl, rfl⟩
    exact h
  · intro h
    exact ⟨(k, c), h, rfl, rfl⟩

theorem matching_ne_nil_iff (vs : List Violation) (p : Int) (k : String) :
    matching vs p k ≠ [] ↔ ∃ v ∈ vs, v.rule.priority = p ∧ classname v.rule.name = k := by
  unfold matching
  rw [ne_eq, List.filter_eq_nil_iff]
  simp

/-- C1: the summary rows written by the lambda `fct` for priority `p` contain a row for
the key `k` exactly when some violation has rule priority `p` and sanitized rule name `k`,
and the count shown in such a row is the number of those violations. -/
theorem C1_summary_row_iff_count (results : Results) (p : Int) (k : String) :
    ((∃ c, SummaryRow.category k c ∈ fct results p) ↔
        ∃ v ∈ results.allViolations, v.rule.priority = p ∧ classname v.rule.name = k)
    ∧ ∀ c, SummaryRow.category k c ∈ fct results p →
        c = ((results.allViolations.filter (fun v =>
              decide (v.rule.priority = p) && decide (classname v.rule.name = k))).length : Int) := by
  constructor
  · rw [← matching_ne_nil_iff]
    constructor
    · rintro ⟨c, hc⟩
      exact ((mem_fctArray _ _ _ _).1 ((category_mem_fct _ _ _ _).1 hc)).1
    · intro h
      exact ⟨_, (category_mem_fct _ _ _ _).2 ((mem_fctArray _ _ _ _).2 ⟨h, rfl⟩)⟩
  · intro c hc
    exact ((mem_fctArray _ _ _ _).1 ((category_mem_fct _ _ _ _).1 hc)).2

theorem fct_part_of_summary (results : Results) (p : Int) (hp : p = 1 ∨ p = 2 ∨ p = 3)
    (hpos : 0 < results.numberOfViolationsWithPriority p) :
    fct results p <:+: writeSummaryRows results := by
  unfold writeSummaryRows
  rcases hp with rfl | rfl | rfl
  · rw [if_pos hpos]
    exact (List.infix_append _ _ _).trans (List.prefix_append _ _).isInfix
  · rw [if_pos hpos]
    exact List.infix_append _ _ _
  · rw [if_pos hpos]
    exact (List.suffix_append _ _).isInfix

/-- C2: for a priority `p` in {1,2,3} with a positive reported count, the section of `p`
is written, its header row shows the reported count, and the counts of its category rows
add up to that count. -/
theorem C2_category_counts_sum_to_total (results : Results) (p : Int)
    (hp : p = 1 ∨ p = 2 ∨ p = 3) (hpos : 0 < results.numberOfViolationsWithPriority p) :
    fct results p <:+: writeSummaryRows results
    ∧ (fct results p).head? = some (SummaryRow.priorityHeader p
        (results.numberOfViolationsWithPriority p))
    ∧ ((categoryEntries (fct results p)).map Prod.snd).sum
        = results.numberOfViolationsWithPriority p := by
  refine ⟨fct_part_of_summary results p hp hpos, rfl, ?_⟩
  rw [categoryEntries_fct]
  exact total_fctArray results.allViolations p

/-- C6: the category rows written for priority `p` are in strictly ascending order of
their keys under the comparison of the map, so no key is shown twice. -/
theorem C6_rows_strictly_ascending (results : Results) (p : Int) :
    (categoryEntries (fct results p)).Pairwise (fun a b => less a.1 b.1 = true)
    ∧ ((categoryEntries (fct results p)).map Prod.fst).Nodup := by
  rw [categoryEntries_fct]
  have h := pairwise_fctArray results.allViolations p
  constructor
  · exact h.imp (fun hab => (less_iff _ _).2 hab)
  · rw [List.Nodup, List.pairwise_map]
    exact h.imp (fun hab => ne_of_lt hab)

theorem fctArray_perm (vs ws : List Violation) (p : Int) (h : vs.Perm ws) :
    fctArray vs p = fctArray ws p := by
  have hv := pairwise_fctArray vs p
  have hw := pairwise_fctArray ws p
  have hmatch : ∀ k, (matching vs p k).Perm (matching ws p k) := fun k => h.filter _
  have hmem : ∀ x, x ∈ fctArray vs p ↔ x ∈ fctArray ws p := by
    rintro ⟨k, c⟩
    rw [mem_fctArray, mem_fctArray, (hmatch k).length_eq]
    constructor
    · rintro ⟨h1, h2⟩
      refine ⟨fun h0 => h1 ?_, h2⟩
      exact List.eq_nil_of_length_eq_zero (by rw [(hmatch k).length_eq, h0]; rfl)
    · rintro ⟨h1, h2⟩
      refine ⟨fun h0 => h1 ?_, h2⟩
      exact List.eq_nil_of_length_eq_zero (by rw [← (hmatch k).length_eq, h0]; rfl)
  have hnd : ∀ m : StdMap, m.Pairwise (fun a b => a.1 < b.1) → m.Nodup := by
    intro m hm
    exact hm.imp (fun hab heq => absurd hab (by rw [heq]; exact lt_irrefl _))
  have hperm : (fctArray vs p).Perm (fctArray ws p) :=
    (List.perm_ext_iff_of_nodup (hnd _ hv) (hnd _ hw)).2 hmem
  haveI : IsAntisymm (String × Int) (fun a b => a.1 < b.1) :=
    ⟨fun a b hab hba => absurd (lt_trans hab hba) (lt_irrefl _)⟩
  exact List.eq_of_perm_of_sorted hperm hv hw

/-- C9: when the violation sequences of two result sets are permutations of each other,
the lambda `fct` writes the identical ordered list of summary rows for every priority. -/
theorem C9_grouping_order_independent (r₁ r₂ : Results) (p : Int)
    (h : r₁.allViolations.Perm r₂.allViolations) : fct r₁ p = fct r₂ p := by
  unfold fct Results.numberOfViolationsWithPriority
  simp only
  rw [fctArray_perm _ _ p h, (h.filter _).length_eq]

set_option maxRecDepth 100000 in
/-- Witness of C2 on `sampleResults` at priority 1. -/
theorem C2_witness :
    fct sampleResults 1 <:+: writeSummaryRows sampleResults
    ∧ (fct sampleResults 1).head? = some (SummaryRow.priorityHeader 1
        (sampleResults.numberOfViolationsWithPriority 1))
    ∧ ((categoryEntries (fct sampleResults 1)).map Prod.snd).sum
        = sampleResults.numberOfViolationsWithPriority 1 :=
  C2_category_counts_sum_to_total sampleResults 1 (Or.inl rfl) (by decide)

set_option maxRecDepth 100000 in
/-- Witness of C9 on `sampleResults` and a reordering of it. -/
theorem C9_witness :
    sampleResults.allViolations.Perm sampleResultsPermuted.allViolations
    ∧ fct sampleResults 1 = fct sampleResultsPermuted 1 :=
  ⟨by decide, C9_grouping_order_independent sampleResults sampleResultsPermuted 1 (by decide)⟩

/-- C4: the body rows of the detail table are one row per violation in the given order,
then one row per compiler error, one per compiler warning and one per checker bug, each
group in its order; an empty group contributes no row, so the number of rows is the sum of
the four sizes. -/
theorem C4_detail_rows_in_order (results : Results) :
    reportDetailRows results
      = results.allViolations.map writeViolation
        ++ results.allErrors.map (fun v => writeCompilerErrorOrWarning v "error")
        ++ results.allWarnings.map (fun v => writeCompilerErrorOrWarning v "warning")
        ++ results.allCheckerBugs.map writeCheckerBug
    ∧ (reportDetailRows results).length
      = results.allViolations.length + results.allErrors.length
        + results.allWarnings.length + results.allCheckerBugs.length := by
  have key : reportDetailRows results
      = results.allViolations.map writeViolation
        ++ results.allErrors.map (fun v => writeCompilerErrorOrWarning v "error")
        ++ results.allWarnings.map (fun v => writeCompilerErrorOrWarning v "warning")
        ++ results.allCheckerBugs.map writeCheckerBug := by
    obtain ⟨vs, es, ws, bs⟩ := results
    unfold reportDetailRows Results.hasErrors Results.hasWarnings Results.hasCheckerBugs
      writeCompilerDiagnostics writeCheckerBugs
    cases es <;> cases ws <;> cases bs <;> simp
  refine ⟨key, ?_⟩
  rw [key]
  simp only [List.length_append, List.length_map]

theorem header_mem_fct (results : Results) (p q n : Int) :
    SummaryRow.priorityHeader p n ∈ fct results q
      ↔ p = q ∧ n = results.numberOfViolationsWithPriority q := by
  unfold fct
  simp

/-- C5: for `p` in {1,2,3} the summary body contains a "Priority p" header row exactly
when the reported count of `p` is positive, in which case the whole section written by `fct`
(header and category rows) is part of the body; category rows come only from such
sections; and when the three counts are 0 the body is the "All Bugs" row alone, showing
0. -/
theorem C5_sections_iff_positive_count (results : Results) :
    (∀ p : Int, p = 1 ∨ p = 2 ∨ p = 3 →
      ((∃ n, SummaryRow.priorityHeader p n ∈ writeSummaryRows results)
          ↔ 0 < results.numberOfViolationsWithPriority p)
      ∧ (0 < results.numberOfViolationsWithPriority p →
          fct results p <:+: writeSummaryRows results))
    ∧ (∀ k c, SummaryRow.category k c ∈ writeSummaryRows results →
        ∃ p : Int, (p = 1 ∨ p = 2 ∨ p = 3) ∧ 0 < results.numberOfViolationsWithPriority p
          ∧ SummaryRow.category k c ∈ fct results p)
    ∧ (results.numberOfViolationsWithPriority 1 = 0
        ∧ results.numberOfViolationsWithPriority 2 = 0
        ∧ results.numberOfViolationsWithPriority 3 = 0 →
        writeSummaryRows results = [SummaryRow.allBugs 0]) := by
  refine ⟨?_, ?_, ?_⟩
  · intro p hp
    refine ⟨⟨?_, ?_⟩, fct_part_of_summary results p hp⟩
    · rintro ⟨n, hn⟩
      unfold writeSummaryRows at hn
      simp only [List.mem_append, List.mem_singleton, reduceCtorEq, false_or] at hn
      rcases hn with (hn | hn) | hn
      · split at hn
        · rename_i h
          obtain ⟨rfl, _⟩ := (header_mem_fct _ _ _ _).1 hn
          exact h
        · simp at hn
      · split at hn
        · rename_i h
          obtain ⟨rfl, _⟩ := (header_mem_fct _ _ _ _).1 hn
          exact h
        · simp at hn
      · split at hn
        · rename_i h
          obtain ⟨rfl, _⟩ := (header_mem_fct _ _ _ _).1 hn
          exact h
        · simp at hn
    · intro hpos
      exact ⟨_, (fct_part_of_summary results p hp hpos).subset ((header_mem_fct _ _ _ _).2 ⟨rfl, rfl⟩)⟩
  · intro k c hkc
    unfold writeSummaryRows at hkc
    simp only [List.mem_append, List.mem_singleton, reduceCtorEq, false_or] at hkc
    rcases hkc with (hkc | hkc) | hkc
    · split at hkc
      · rename_i h
        exact ⟨1, Or.inl rfl, h, hkc⟩
      · simp at hkc
    · split at hkc
      · rename_i h
        exact ⟨2, Or.inr (Or.inl rfl), h, hkc⟩
      · simp at hkc
    · split at hkc
      · rename_i h
        exact ⟨3, Or.inr (Or.inr rfl), h, hkc⟩
      · simp at hkc
  · rintro ⟨h1, h2, h3⟩
    unfold writeSummaryRows
    rw [h1, h2, h3]
    simp

theorem takeWhile_append_cut {α : Type} (p : α → Bool) (l : List α) (a : α) (r : List α)
    (ha : p a = false) : (l ++ a :: r).takeWhile p = l.takeWhile p := by
  induction l with
  | nil => simp [List.takeWhile, ha]
  | cons x t ih =>
    rw [List.cons_append, List.takeWhile_cons, List.takeWhile_cons, ih]

theorem classAttribute_writeViolation (v : Violation) :
    classAttribute (writeViolation v)
      = String.mk ((classname v.rule.name).data.takeWhile (fun c => c != '"')) := by
  unfold classAttribute writeViolation
  simp only [String.data_append, List.append_assoc]
  have h0 : "<tr class=\"".length = "<tr class=\"".data.length := rfl
  rw [h0, List.drop_left]
  simp only [List.cons_append]
  rw [takeWhile_append_cut _ _ _ _ (by decide)]

set_option maxRecDepth 100000 in
/-- C7, as stated, fails: "Long Method" (priority 1) and "Long_Method" (priority 2) have
the same sanitized name, yet the summary counts them in two different rows, one per
priority section, each showing 1. -/
theorem C7_counterexample :
    classname spacedNameViolation.rule.name = classname underscoredNameViolation.rule.name
    ∧ writeSummaryRows mixedPriorityResults
        = [SummaryRow.allBugs 2,
           SummaryRow.priorityHeader 1 1, SummaryRow.category "Long_Method" 1,
           SummaryRow.priorityHeader 2 1, SummaryRow.category "Long_Method" 1]
    ∧ ∀ entry ∈ categoryEntries (writeSummaryRows mixedPriorityResults), entry.2 = 1 := by
  decide

/-- C7 (amended): two violations whose rule names are equal after sanitization get the same
class attribute from `writeViolation`, whatever their categories; and when they also have
the same rule priority `p`, the section of `p` counts both in one row: the row of their
key shows the number of other matching violations plus 2, and every row of that key in the
section shows this count. -/
theorem C7_same_key_same_class_and_row (results : Results) (v₁ v₂ : Violation)
    (before between after : List Violation)
    (hname : classname v₁.rule.name = classname v₂.rule.name)
    (hvs : results.allViolations = before ++ v₁ :: between ++ v₂ :: after) :
    classAttribute (writeViolation v₁) = classAttribute (writeViolation v₂)
    ∧ (v₁.rule.priority = v₂.rule.priority →
        SummaryRow.category (classname v₁.rule.name)
            (((matching (before ++ between ++ after) v₁.rule.priority
                (classname v₁.rule.name)).length : Int) + 2)
          ∈ fct results v₁.rule.priority
        ∧ ∀ c, SummaryRow.category (classname v₁.rule.name) c ∈ fct results v₁.rule.priority →
            c = ((matching (before ++ between ++ after) v₁.rule.priority
                (classname v₁.rule.name)).length : Int) + 2) := by
  refine ⟨?_, ?_⟩
  · rw [classAttribute_writeViolation, classAttribute_writeViolation, hname]
  · intro hprio
    have hlen : ((matching results.allViolations v₁.rule.priority
          (classname v₁.rule.name)).length : Int)
        = ((matching (before ++ between ++ after) v₁.rule.priority
            (classname v₁.rule.name)).length : Int) + 2 := by
      rw [hvs]
      unfold matching
      simp only [List.filter_append, List.filter_cons, List.length_append, hprio, hname,
        decide_True, Bool.and_self, if_true, List.length_cons]
      push_cast
      ring
    have hne : matching results.allViolations v₁.rule.priority (classname v₁.rule.name) ≠ [] := by
      intro h0
      rw [h0] at hlen
      simp only [List.length_nil, Nat.cast_zero] at hlen
      omega
    constructor
    · rw [category_mem_fct, mem_fctArray]
      exact ⟨hne, hlen.symm⟩
    · intro c hc
      rw [category_mem_fct, mem_fctArray] at hc
      rw [hc.2, hlen]

set_option maxRecDepth 100000 in
/-- Witness of C7 (amended) on "Long Method" and "Long_Method", both of priority 1. -/
theorem C7_witness :
    classname spacedNameViolation.rule.name
        = classname underscoredSamePriorityViolation.rule.name
    ∧ classAttribute (writeViolation spacedNameViolation)
        = classAttribute (writeViolation underscoredSamePriorityViolation)
    ∧ SummaryRow.category "Long_Method" 2 ∈ fct samePriorityResults 1 :=
  ⟨by decide,
   (C7_same_key_same_class_and_row samePriorityResults spacedNameViolation
      underscoredSamePriorityViolation [] [] [] (by decide) rfl).1,
   ((C7_same_key_same_class_and_row samePriorityResults spacedNameViolation
      underscoredSamePriorityViolation [] [] [] (by decide) rfl).2 rfl).1⟩

set_option maxRecDepth 100000 in
/-- C8, as stated, fails: the markup characters of a path `<b>` and a message `a&b` reach
the rows unescaped, for each of the three row writers. -/
theorem C8_counterexample :
    writeViolation markupViolation
      = "<tr class=\"R\"><td><b></td><td>1:1</td><td>R</td><td>c</td><td class='priority1'>1</td><td>a&b</td></tr>"
    ∧ writeCompilerErrorOrWarning markupViolation "error"
      = "<tr class=\"compiler-error\"><td><b></td><td>1:1</td><td>compiler error</td><td></td><td class='cmplr-error'>error</td><td>a&b</td></tr>"
    ∧ writeCheckerBug markupViolation
      = "<tr class=\"clang_static_analyzer\"><td><b></td><td>1:1</td><td>clang static analyzer</td><td></td><td class='checker-bug'>checker bug</td><td>a&b</td></tr>"
    ∧ occurrences '<' (writeViolation markupViolation)
      ≠ occurrences '<' (writeViolation { markupViolation with path := "", message := "" }) := by
  decide

/-- C8 (amended): the three row writers insert the file path and the message text
verbatim: the row is fixed text around the unchanged path and the unchanged message, so
every character of them, the markup characters included, occurs in the row as often as in
the path and the message (plus its occurrences in the rest of the row). -/
theorem C8_path_and_message_verbatim (v : Violation) (level : String) :
    (∃ pre mid post, ∀ path message,
        writeViolation { v with path := path, message := message }
          = pre ++ path ++ mid ++ message ++ post)
    ∧ (∃ pre mid post, ∀ path message,
        writeCompilerErrorOrWarning { v with path := path, message := message } level
          = pre ++ path ++ mid ++ message ++ post)
    ∧ (∃ pre mid post, ∀ path message,
        writeCheckerBug { v with path := path, message := message }
          = pre ++ path ++ mid ++ message ++ post)
    ∧ (∀ c, occurrences c (writeViolation v)
          = occurrences c v.path + occurrences c v.message
            + occurrences c (writeViolation { v with path := "", message := "" }))
    ∧ (∀ c, occurrences c (writeCompilerErrorOrWarning v level)
          = occurrences c v.path + occurrences c v.message
            + occurrences c (writeCompilerErrorOrWarning { v with path := "", message := "" }
                level))
    ∧ (∀ c, occurrences c (writeCheckerBug v)
          = occurrences c v.path + occurrences c v.message
            + occurrences c (writeCheckerBug { v with path := "", message := "" })) := by
  refine ⟨?_, ?_, ?_, ?_, ?_, ?_⟩
  · refine ⟨"<tr class=\"" ++ classname v.rule.name ++ "\">" ++ "<td>",
      "</td><td>" ++ showInt v.startLine ++ ":" ++ showInt v.startColumn ++ "</td>"
        ++ "<td>" ++ v.rule.name ++ "</td>" ++ "<td>" ++ v.rule.category ++ "</td>"
        ++ "<td class='priority" ++ showInt v.rule.priority ++ "'>"
        ++ showInt v.rule.priority ++ "</td>" ++ "<td>",
      "</td></tr>", ?_⟩
    intro path message
    simp only [writeViolation, String.append_assoc]
  · refine ⟨"<tr class=\"compiler-" ++ level ++ "\">" ++ "<td>",
      "</td><td>" ++ showInt v.startLine ++ ":" ++ showInt v.startColumn ++ "</td>"
        ++ "<td>compiler " ++ level ++ "</td><td></td><td class='cmplr-" ++ level ++ "'>"
        ++ level ++ "</td><td>",
      "</td></tr>", ?_⟩
    intro path message
    simp only [writeCompilerErrorOrWarning, String.append_assoc]
  · refine ⟨"<tr class=\"clang_static_analyzer\"><td>",
      "</td><td>" ++ showInt v.startLine ++ ":" ++ showInt v.startColumn ++ "</td>"
        ++ "<td>clang static analyzer</td><td></td><td class='checker-bug'>"
        ++ "checker bug</td><td>",
      "</td></tr>", ?_⟩
    intro path message
    simp only [writeCheckerBug, String.append_assoc]
  · intro c
    simp only [occurrences, writeViolation, String.data_append, List.count_append]
    have h0 : ("" : String).data = [] := rfl
    simp only [h0, List.count_nil]
    omega
  · intro c
    simp only [occurrences, writeCompilerErrorOrWarning, String.data_append, List.count_append]
    have h0 : ("" : String).data = [] := rfl
    simp only [h0, List.count_nil]
    omega
  · intro c
    simp only [occurrences, writeCheckerBug, String.data_append, List.count_append]
    have h0 : ("" : String).data = [] := rfl
    simp only [h0, List.count_nil]
    omega

theorem display_of_SetDisplay (RowClass DisplayVal : String) (rows : List TableRow)
    (row : TableRow) (hrow : row ∈ SetDisplay RowClass DisplayVal rows)
    (hclass : row.className = RowClass) : row.display = DisplayVal := by
  unfold SetDisplay at hrow
  obtain ⟨r, _, hr⟩ := List.mem_map.1 hrow
  by_cases h : r.className = RowClass
  · rw [if_pos h] at hr
    rw [← hr]
  · rw [if_neg h] at hr
    rw [← hr] at hclass
    exact absurd hclass h

theorem clickCategory_checked (page : Page) (i : Nat) (button : CheckButton)
    (hi : page.checkButtons[i]? = some button) (hchecked : button.checked = true) :
    clickCategory page i
      = { NumUnchecked := page.NumUnchecked + 1
          AllBugsCheck := false
          checkButtons := page.checkButtons.modify (fun b => { b with checked := false }) i
          rows := SetDisplay button.className "none" page.rows } := by
  unfold clickCategory
  rw [hi]
  simp only [hchecked, Bool.not_true]
  unfold ToggleDisplay setChecked
  simp only [List.getElem?_modify_eq, hi, Option.map_some']
  simp

theorem clickCategory_unchecked (page : Page) (i : Nat) (button : CheckButton)
    (hi : page.checkButtons[i]? = some button) (hchecked : button.checked = false) :
    clickCategory page i
      = { NumUnchecked := page.NumUnchecked - 1
          AllBugsCheck := if page.NumUnchecked - 1 = 0 then true else page.AllBugsCheck
          checkButtons := page.checkButtons.modify (fun b => { b with checked := true }) i
          rows := SetDisplay button.className "" page.rows } := by
  unfold clickCategory
  rw [hi]
  simp only [hchecked, Bool.not_false]
  unfold ToggleDisplay setChecked
  simp only [List.getElem?_modify_eq, hi, Option.map_some']
  by_cases h : page.NumUnchecked - 1 = 0 <;> simp [h]

/-- C10: unchecking a checked category checkbox adds 1 to `NumUnchecked`, hides the rows
of its class and unchecks the master checkbox; re-checking it returns `NumUnchecked` to its
previous value, restores the checkboxes and shows those rows again; from `NumUnchecked = 0`
the two steps give `NumUnchecked = 1` and then `NumUnchecked = 0` with the master checkbox
checked again. -/
theorem C10_uncheck_then_recheck (page : Page) (i : Nat) (button : CheckButton)
    (hi : page.checkButtons[i]? = some button) (hchecked : button.checked = true) :
    (clickCategory page i).NumUnchecked = page.NumUnchecked + 1
    ∧ (clickCategory page i).AllBugsCheck = false
    ∧ (clickCategory page i).checkButtons[i]? = some { button with checked := false }
    ∧ (∀ row ∈ (clickCategory page i).rows,
        row.className = button.className → row.display = "none")
    ∧ (clickCategory (clickCategory page i) i).NumUnchecked = page.NumUnchecked
    ∧ (clickCategory (clickCategory page i) i).checkButtons = page.checkButtons
    ∧ (∀ row ∈ (clickCategory (clickCategory page i) i).rows,
        row.className = button.className → row.display = "")
    ∧ (page.NumUnchecked = 0 →
        (clickCategory page i).NumUnchecked = 1
        ∧ (clickCategory (clickCategory page i) i).NumUnchecked = 0
        ∧ (clickCategory (clickCategory page i) i).AllBugsCheck = true) := by
  have h1 := clickCategory_checked page i button hi hchecked
  have hi1 : (clickCategory page i).checkButtons[i]? = some { button with checked := false } := by
    rw [h1]
    simp [List.getElem?_modify_eq, hi]
  have h2 := clickCategory_unchecked (clickCategory page i) i { button with checked := false }
    hi1 rfl
  have hback : (clickCategory (clickCategory page i) i).checkButtons = page.checkButtons := by
    rw [h2, h1]
    simp only [List.modify_modify_eq]
    apply List.ext_getElem?
    intro n
    by_cases hn : n = i
    · subst hn
      rw [List.getElem?_modify_eq, hi]
      cases button with
      | mk cn ch =>
        simp only at hchecked
        simp [hchecked]
    · rw [List.getElem?_modify_ne _ _ (Ne.symm hn)]
  refine ⟨?_, ?_, hi1, ?_, ?_, hback, ?_, ?_⟩
  · rw [h1]
  · rw [h1]
  · intro row hrow hclass
    rw [h1] at hrow
    exact display_of_SetDisplay _ _ _ row hrow hclass
  · rw [h2, h1]
    simp
  · intro row hrow hclass
    rw [h2] at hrow
    exact display_of_SetDisplay _ _ _ row hrow hclass
  · intro h0
    refine ⟨?_, ?_, ?_⟩
    · rw [h1]
      simp [h0]
    · rw [h2, h1]
      simp [h0]
    · rw [h2, h1]
      simp [h0]

set_option maxRecDepth 100000 in
/-- Witness of C10 on the page of `twoCategoryResults`, first category checkbox. -/
theorem C10_witness :
    (Page.load twoCategoryResults).checkButtons[0]?
        = some { className := "Empty_If_Statement", checked := true }
    ∧ (clickCategory (Page.load twoCategoryResults) 0).NumUnchecked = 1
    ∧ (clickCategory (clickCategory (Page.load twoCategoryResults) 0) 0).NumUnchecked = 0
    ∧ (clickCategory (clickCategory (Page.load twoCategoryResults) 0) 0).AllBugsCheck = true :=
  ⟨by decide,
   ((C10_uncheck_then_recheck (Page.load twoCategoryResults) 0
      { className := "Empty_If_Statement", checked := true } (by decide) rfl).2.2.2.2.2.2.2
      (by decide))⟩

set_option maxRecDepth 100000 in
/-- C3 fails on the code: on the page of `twoCategoryResults`, unchecking the first
category checkbox and then clicking the master checkbox leaves every category checkbox
checked while `NumUnchecked` is -1; and on a page without category checkboxes a click on
the master checkbox leaves it unchecked while `NumUnchecked` is 0. -/
theorem C3_invariant_broken_by_master_click :
    (((Page.load twoCategoryResults).run [Click.category 0, Click.master]).NumUnchecked = -1
      ∧ ((Page.load twoCategoryResults).run [Click.category 0, Click.master]).unchecked = 0
      ∧ ((Page.load twoCategoryResults).run [Click.category 0, Click.master]).AllBugsCheck
          = true)
    ∧ (((Page.load emptyResults).run [Click.master]).NumUnchecked = 0
      ∧ ((Page.load emptyResults).run [Click.master]).unchecked = 0
      ∧ ((Page.load emptyResults).run [Click.master]).AllBugsCheck = false) := by
  decide

end HTMLReporter
